import Mathlib

/-!
Verification of the class-like member parser (src/parser/internal/classish_statements.rs).

The parser is embedded shallowly: the token cursor, scope stack and pending
attribute list of the original mutable `State` become an explicit `State`
structure that every sub-parser threads through.  Fallible parsers return
`Except ParseError (result × State)`, matching the original `ParseResult<T>`
together with the in-place state mutation.  The collaborators that live
outside the reviewed file (lexer, identifier helpers, expression parser,
modifier classifier, attribute gatherer, type parser, function parser) are
modelled from the specification; each such definition says so in its doc
comment.  Everything defined in `classish_statements.rs` itself is translated
directly from that source.

Loops in the source are embedded as fuel-indexed structural recursions; the
fuel passed at every call site is `tokens.length + 1`, which is sufficient
because every loop iteration consumes at least one token, so the fuel-out
branch is unreachable on the calls the parser actually makes.
-/

namespace PhpParser

/-- Modelled from the spec: declared property types come from the external
type parser (`data_type` module); the spec only constrains whether a type
"includes a callable shape" or "is the bottom type", so the model keeps a
named-type constructor plus one constructor for each forbidden class. -/
inductive Ty where
  | named (s : String)
  | callableShape
  | bottom
  deriving DecidableEq, Repr

/-- `Type::includes_callable` of the external AST: true exactly on the
callable-shape constructor of the model. -/
def Ty.includes_callable : Ty → Bool
  | .callableShape => true
  | _ => false

/-- `Type::is_bottom` of the external AST: true exactly on the bottom type. -/
def Ty.is_bottom : Ty → Bool
  | .bottom => true
  | _ => false

/-- Modelled from the spec: expression values produced by the external
expression parser.  Only literal values are needed by the stated claims. -/
inductive Expr where
  | intLit (n : Int)
  deriving DecidableEq, Repr

/-- Modelled from the spec: kinds of tokens this unit inspects.  Identifier,
variable, literal, attribute and type tokens carry their payload; the
external lexer is otherwise out of scope. -/
inductive TokenKind where
  | useKw
  | constKw
  | functionKw
  | caseKw
  | equals
  | semiColon
  | comma
  | leftBrace
  | rightBrace
  | leftParen
  | rightParen
  | doubleColon
  | asKw
  | insteadofKw
  | publicKw
  | protectedKw
  | privateKw
  | staticKw
  | readonlyKw
  | finalKw
  | abstractKw
  | identTok (s : String)
  | varTok (s : String)
  | intTok (n : Int)
  | attrTok
  | tyTok (t : Ty)
  | eof
  deriving DecidableEq, Repr

/-- A token: kind plus source span (spans are modelled as plain positions). -/
structure Token where
  kind : TokenKind
  span : Nat
  deriving DecidableEq, Repr

/-- Modelled from the spec: raw modifiers returned by the external modifier
collection. -/
inductive Modifier where
  | publicM
  | protectedM
  | privateM
  | staticM
  | readonlyM
  | finalM
  | abstractM
  deriving DecidableEq, Repr

/-- Visibility modifier nodes exactly as built by the adaptation parser:
the constructor records the spans used at the build site (current token's
span and lookahead token's span). -/
inductive VisibilityModifier where
  | Public (start endSpan : Nat)
  | Protected (start endSpan : Nat)
  | Private (start endSpan : Nat)
  deriving DecidableEq, Repr

/-- An identifier node: name text plus the span of its token. -/
structure Identifier where
  name : String
  span : Nat
  deriving DecidableEq, Repr

/-- Modelled from the spec: one gathered attribute (only its span matters to
this unit, which never looks inside attributes). -/
structure Attribute where
  span : Nat
  deriving DecidableEq, Repr

/-- Scope frames of the enclosing class-like context.  The extends/implements
payload of `Scope::Class` and the backing type of `Scope::Enum` are not read
by this unit beyond presence, so they are reduced to the fields it uses. -/
inductive Scope where
  | classScope (name : String)
  | traitScope (name : String)
  | enumScope (name : String) (backed : Bool)
  | anonymousClass (id : Nat)
  deriving DecidableEq, Repr

/-- The parser state: remaining token stream (current token is the head,
lookahead the second element), scope stack, and the pending attribute list
filled by the attribute gatherer and drained by `get_attributes`. -/
structure State where
  tokens : List Token
  scopes : List Scope
  attributes : List Attribute
  deriving DecidableEq, Repr

/-- The token yielded once the stream is exhausted. -/
def eofToken : Token := ⟨TokenKind.eof, 0⟩

/-- `state.current`. -/
def State.current (s : State) : Token := s.tokens.headD eofToken

/-- `state.peek` (one-token lookahead). -/
def State.peek (s : State) : Token :=
  match s.tokens with
  | _ :: t :: _ => t
  | _ => eofToken

/-- `state.next()`: advance the cursor by one token. -/
def State.next (s : State) : State := { s with tokens := s.tokens.tail }

/-- Modelled from the spec: `state.named` renders a scope-qualified
diagnostic name; namespace resolution is outside this unit, so the model
returns the name unchanged. -/
def State.named (_s : State) (n : String) : String := n

/-- `state.get_attributes()`: drain the pending attribute list. -/
def State.get_attributes (s : State) : List Attribute × State :=
  (s.attributes, { s with attributes := [] })

/-- The parse-error taxonomy visible to this unit: the fixed-expected-set
grammar violations raised by the shared expect/skip helpers and the
context-specific violations raised directly by `classish_statements.rs`. -/
inductive ParseError where
  | ExpectedToken (expected : List TokenKind) (found : TokenKind) (span : Nat)
  | ExpectedIdentifier (found : TokenKind) (span : Nat)
  | ExpectedVariable (found : TokenKind) (span : Nat)
  | ExpectedExpression (span : Nat)
  | CaseValueForUnitEnum (caseName : String) (enumName : String) (span : Nat)
  | MissingCaseValueForBackedEnum (caseName : String) (enumName : String) (span : Nat)
  | StaticPropertyUsingReadonlyModifier (className : String) (prop : String) (span : Nat)
  | ReadonlyPropertyHasDefaultValue (className : String) (prop : String) (span : Nat)
  | ForbiddenTypeUsedInProperty (className : String) (prop : String) (ty : Ty) (span : Nat)
  | MissingTypeForReadonlyProperty (className : String) (prop : String) (span : Nat)
  | UnpredictableState (span : Nat)
  deriving DecidableEq, Repr

/-- Validated modifier group for methods. -/
structure MethodModifierGroup where
  modifiers : List Modifier
  deriving DecidableEq, Repr

/-- Validated modifier group for classish constants. -/
structure ConstantModifierGroup where
  modifiers : List Modifier
  deriving DecidableEq, Repr

/-- Validated modifier group for properties. -/
structure PropertyModifierGroup where
  modifiers : List Modifier
  deriving DecidableEq, Repr

/-- `PropertyModifierGroup::has_readonly`: some collected modifier is
readonly. -/
def PropertyModifierGroup.has_readonly (g : PropertyModifierGroup) : Bool :=
  g.modifiers.any (fun m => m = Modifier.readonlyM)

/-- `PropertyModifierGroup::has_static`: some collected modifier is static. -/
def PropertyModifierGroup.has_static (g : PropertyModifierGroup) : Bool :=
  g.modifiers.any (fun m => m = Modifier.staticM)

/-- Modelled from the spec: the external modifier classifier maps raw
modifiers to a construct-specific validated group or a conflict error; the
conflict rules live outside this unit and are not specified, so the model
accepts every collected set (interface-method rules). -/
def interface_method_group (ms : List Modifier) : Except ParseError MethodModifierGroup :=
  .ok ⟨ms⟩

/-- Modelled from the spec: interface-constant modifier validation (see
`interface_method_group` for the modelling convention). -/
def interface_constant_group (ms : List Modifier) : Except ParseError ConstantModifierGroup :=
  .ok ⟨ms⟩

/-- Modelled from the spec: enum-method modifier validation. -/
def enum_method_group (ms : List Modifier) : Except ParseError MethodModifierGroup :=
  .ok ⟨ms⟩

/-- Modelled from the spec: generic constant modifier validation. -/
def constant_group (ms : List Modifier) : Except ParseError ConstantModifierGroup :=
  .ok ⟨ms⟩

/-- Modelled from the spec: class-method modifier validation. -/
def method_group (ms : List Modifier) : Except ParseError MethodModifierGroup :=
  .ok ⟨ms⟩

/-- Modelled from the spec: property modifier validation.  The property
validator accepts readonly and static together — their conflict is reported
by `class_like_statement` itself, after parsing. -/
def property_group (ms : List Modifier) : Except ParseError PropertyModifierGroup :=
  .ok ⟨ms⟩

/-- Modelled from the spec: `identifiers::ident`, the bare-identifier
helper — consume one identifier token or fail. -/
def ident (s : State) : Except ParseError (Identifier × State) :=
  match s.current.kind with
  | .identTok n => .ok (⟨n, s.current.span⟩, s.next)
  | k => .error (.ExpectedIdentifier k s.current.span)

/-- Modelled from the spec: `identifiers::full_name`, the possibly-qualified
name helper; qualification is collapsed into the identifier token's text. -/
def full_name (s : State) : Except ParseError (Identifier × State) :=
  match s.current.kind with
  | .identTok n => .ok (⟨n, s.current.span⟩, s.next)
  | k => .error (.ExpectedIdentifier k s.current.span)

/-- Modelled from the spec: `identifiers::name`, the alias-name helper. -/
def name (s : State) : Except ParseError (Identifier × State) :=
  match s.current.kind with
  | .identTok n => .ok (⟨n, s.current.span⟩, s.next)
  | k => .error (.ExpectedIdentifier k s.current.span)

/-- Modelled from the spec: `identifiers::var`, the variable-name helper. -/
def var (s : State) : Except ParseError (Identifier × State) :=
  match s.current.kind with
  | .varTok n => .ok (⟨n, s.current.span⟩, s.next)
  | k => .error (.ExpectedVariable k s.current.span)

/-- Modelled from the spec: `utils::skip`, the expect-and-consume helper for
one specific token kind; returns the consumed token's span. -/
def skip (s : State) (kind : TokenKind) : Except ParseError (Nat × State) :=
  if s.current.kind = kind then .ok (s.current.span, s.next)
  else .error (.ExpectedToken [kind] s.current.kind s.current.span)

/-- `utils::skip_semicolon`: expect the statement terminator. -/
def skip_semicolon (s : State) : Except ParseError (Nat × State) :=
  skip s .semiColon

/-- `utils::skip_left_brace`: expect the adaptation-block opener. -/
def skip_left_brace (s : State) : Except ParseError (Nat × State) :=
  skip s .leftBrace

/-- `utils::skip_right_brace`: expect the block closer. -/
def skip_right_brace (s : State) : Except ParseError (Nat × State) :=
  skip s .rightBrace

/-- Minimum-precedence parameter of the expression parser; only the lowest
level is used by this unit. -/
inductive Precedence where
  | Lowest
  deriving DecidableEq, Repr

/-- Modelled from the spec: the external expression parser, parameterized by
minimum precedence, reused for defaults, constant values and enum backing
values.  The model consumes one literal token. -/
def expression (s : State) (_prec : Precedence) : Except ParseError (Expr × State) :=
  match s.current.kind with
  | .intTok n => .ok (.intLit n, s.next)
  | _ => .error (.ExpectedExpression s.current.span)

/-- Fuel-indexed body of the attribute gatherer: consume leading attribute
tokens into the state's pending list, reporting whether any were found. -/
def gather_attributes_fuel : Nat → State → Bool → Bool × State
  | 0, s, found => (found, s)
  | n + 1, s, found =>
    if s.current.kind = TokenKind.attrTok then
      gather_attributes_fuel n
        { tokens := s.tokens.tail
          scopes := s.scopes
          attributes := s.attributes ++ [⟨s.current.span⟩] } true
    else (found, s)

/-- Modelled from the spec: `attributes::gather_attributes` — consume
leading attribute syntax, expose a presence flag, and leave the gathered
list retrievable from the state. -/
def gather_attributes (s : State) : Bool × State :=
  gather_attributes_fuel (s.tokens.length + 1) s false

/-- Modelled from the spec: classification of raw modifier tokens used by
the external modifier collection. -/
def modifier_of (k : TokenKind) : Option Modifier :=
  match k with
  | .publicKw => some .publicM
  | .protectedKw => some .protectedM
  | .privateKw => some .privateM
  | .staticKw => some .staticM
  | .readonlyKw => some .readonlyM
  | .finalKw => some .finalM
  | .abstractKw => some .abstractM
  | _ => none

/-- Fuel-indexed body of the modifier collection loop. -/
def collect_fuel : Nat → State → List Modifier × State
  | 0, s => ([], s)
  | n + 1, s =>
    match modifier_of s.current.kind with
    | some m =>
      let r := collect_fuel n s.next
      (m :: r.1, r.2)
    | none => ([], s)

/-- Modelled from the spec: `modifiers::collect` — consume the run of raw
modifier tokens in front of a member. -/
def collect (s : State) : List Modifier × State :=
  collect_fuel (s.tokens.length + 1) s

/-- Modelled from the spec: `data_type::optional_data_type`, the zero-or-one
type-annotation parser. -/
def optional_data_type (s : State) : Option Ty × State :=
  match s.current.kind with
  | .tyTok t => (some t, s.next)
  | _ => (none, s)

/-- Method node produced by the external function parser: the fields this
unit passes in (name is parsed, modifier group and start span are given by
the caller). -/
structure Method where
  name : Identifier
  modifiers : MethodModifierGroup
  start : Nat
  deriving DecidableEq, Repr

/-- Modelled from the spec: `functions::method`, the external method parser.
The model consumes the function keyword, a method name, an empty parameter
list and an empty body; parameters, return types and statements are outside
this unit. -/
def method (s : State) (modifiers : MethodModifierGroup) (start : Nat) :
    Except ParseError (Method × State) :=
  match skip s .functionKw with
  | .error e => .error e
  | .ok (_, s1) =>
    match ident s1 with
    | .error e => .error e
    | .ok (nm, s2) =>
      match skip s2 .leftParen with
      | .error e => .error e
      | .ok (_, s3) =>
        match skip s3 .rightParen with
        | .error e => .error e
        | .ok (_, s4) =>
          match skip s4 .leftBrace with
          | .error e => .error e
          | .ok (_, s5) =>
            match skip s5 .rightBrace with
            | .error e => .error e
            | .ok (_, s6) => .ok (⟨nm, modifiers, start⟩, s6)

/-- The shared classish-constant helper (`constant`, lines 387-409): consume
the const keyword, parse one name, require the equals sign, parse one
expression at lowest precedence, require the terminator, and build the node
with the caller's validated modifier group and a span from the start keyword
through the terminator. -/
structure ClassishConstant where
  start : Nat
  endSpan : Nat
  name : Identifier
  value : Expr
  modifiers : ConstantModifierGroup
  deriving DecidableEq, Repr

/-- `UnitEnumCase` node: start span, end span (the terminator), name — and,
by construction, no value field. -/
structure UnitEnumCase where
  start : Nat
  endSpan : Nat
  name : Identifier
  deriving DecidableEq, Repr

/-- `BackedEnumCase` node: like a unit case but carrying the parsed value. -/
structure BackedEnumCase where
  start : Nat
  endSpan : Nat
  name : Identifier
  value : Expr
  deriving DecidableEq, Repr

/-- `UnitEnumMember`: case, method or constant. -/
inductive UnitEnumMember where
  | Case (c : UnitEnumCase)
  | Method (m : Method)
  | Constant (c : ClassishConstant)
  deriving DecidableEq, Repr

/-- `BackedEnumMember`: case, method or constant. -/
inductive BackedEnumMember where
  | Case (c : BackedEnumCase)
  | Method (m : Method)
  | Constant (c : ClassishConstant)
  deriving DecidableEq, Repr

/-- `TraitAdaptation`: alias, visibility change, or precedence rule. -/
inductive TraitAdaptation where
  | Alias (tr : Option Identifier) (targetMethod : Identifier) (aliasId : Identifier)
      (visibility : Option VisibilityModifier)
  | Visibility (tr : Option Identifier) (targetMethod : Identifier)
      (visibility : VisibilityModifier)
  | Precedence (tr : Option Identifier) (targetMethod : Identifier)
      (insteadof : List Identifier)
  deriving DecidableEq, Repr

/-- The `Statement` variants this unit produces. -/
inductive Statement where
  | Method (m : Method)
  | ClassishConstant (c : ClassishConstant)
  | Property (v : Identifier) (value : Option Expr) (ty : Option Ty)
      (modifiers : PropertyModifierGroup) (attributes : List Attribute)
  | TraitUse (traits : List Identifier) (adaptations : List TraitAdaptation)
  deriving DecidableEq, Repr

/-- `constant` (lines 387-409): the shared constant helper. -/
def constant (s : State) (modifiers : ConstantModifierGroup) (start : Nat) :
    Except ParseError (ClassishConstant × State) :=
  let s0 := s.next
  match ident s0 with
  | .error e => .error e
  | .ok (nm, s1) =>
    match skip s1 .equals with
    | .error e => .error e
    | .ok (_, s2) =>
      match expression s2 .Lowest with
      | .error e => .error e
      | .ok (value, s3) =>
        match skip_semicolon s3 with
        | .error e => .error e
        | .ok (endSp, s4) => .ok (⟨start, endSp, nm, value, modifiers⟩, s4)

/-- `interface_statement` (lines 29-48): gather attributes, collect
modifiers, then dispatch — attributes or a function keyword select method
parsing under interface-method rules; otherwise a constant under
interface-constant rules. -/
def interface_statement (s0 : State) : Except ParseError (Statement × State) :=
  let g := gather_attributes s0
  let has_attributes := g.1
  let start := g.2.current.span
  let c := collect g.2
  let mods := c.1
  let s := c.2
  if has_attributes = true ∨ s.current.kind = TokenKind.functionKw then
    match interface_method_group mods with
    | .error e => .error e
    | .ok grp =>
      match method s grp start with
      | .error e => .error e
      | .ok (m, s1) => .ok (.Method m, s1)
  else
    match interface_constant_group mods with
    | .error e => .error e
    | .ok grp =>
      match constant s grp start with
      | .error e => .error e
      | .ok (cst, s1) => .ok (.ClassishConstant cst, s1)

/-- `unit_enum_member` (lines 50-93): require an enum scope; with no
attributes and a case keyword, parse the case name, reject an explicit
value, expect the terminator and build a valueless case; otherwise fall
through to the method/constant dispatch. -/
def unit_enum_member (st : State) : Except ParseError (UnitEnumMember × State) :=
  match st.scopes.head? with
  | some (.enumScope enum_name _) =>
    let g := gather_attributes st
    let has_attributes := g.1
    let s := g.2
    if has_attributes = false ∧ s.current.kind = TokenKind.caseKw then
      let start := s.current.span
      let s1 := s.next
      match ident s1 with
      | .error e => .error e
      | .ok (nm, s2) =>
        if s2.current.kind = TokenKind.equals then
          .error (.CaseValueForUnitEnum nm.name (s2.named enum_name) s2.current.span)
        else
          match skip_semicolon s2 with
          | .error e => .error e
          | .ok (endSp, s3) => .ok (.Case ⟨start, endSp, nm⟩, s3)
    else
      let start := s.current.span
      let c := collect s
      let mods := c.1
      let s1 := c.2
      if has_attributes = true ∨ s1.current.kind = TokenKind.functionKw then
        match enum_method_group mods with
        | .error e => .error e
        | .ok grp =>
          match method s1 grp start with
          | .error e => .error e
          | .ok (m, s2) => .ok (.Method m, s2)
      else
        match constant_group mods with
        | .error e => .error e
        | .ok grp =>
          match constant s1 grp start with
          | .error e => .error e
          | .ok (cst, s2) => .ok (.Constant cst, s2)
  | _ => .error (.UnpredictableState st.current.span)

/-- `backed_enum_member` (lines 95-147): like the unit dispatcher, but a
terminator right after the case name is the missing-value violation, and
otherwise the equals sign, the value expression and the terminator are
required, the case retaining the value. -/
def backed_enum_member (st : State) : Except ParseError (BackedEnumMember × State) :=
  match st.scopes.head? with
  | some (.enumScope enum_name _) =>
    let g := gather_attributes st
    let has_attributes := g.1
    let s := g.2
    if has_attributes = false ∧ s.current.kind = TokenKind.caseKw then
      let start := s.current.span
      let s1 := s.next
      match ident s1 with
      | .error e => .error e
      | .ok (nm, s2) =>
        if s2.current.kind = TokenKind.semiColon then
          .error (.MissingCaseValueForBackedEnum nm.name (s2.named enum_name) s2.current.span)
        else
          match skip s2 .equals with
          | .error e => .error e
          | .ok (_, s3) =>
            match expression s3 .Lowest with
            | .error e => .error e
            | .ok (value, s4) =>
              match skip_semicolon s4 with
              | .error e => .error e
              | .ok (endSp, s5) => .ok (.Case ⟨start, endSp, nm, value⟩, s5)
    else
      let start := s.current.span
      let c := collect s
      let mods := c.1
      let s1 := c.2
      if has_attributes = true ∨ s1.current.kind = TokenKind.functionKw then
        match enum_method_group mods with
        | .error e => .error e
        | .ok grp =>
          match method s1 grp start with
          | .error e => .error e
          | .ok (m, s2) => .ok (.Method m, s2)
      else
        match constant_group mods with
        | .error e => .error e
        | .ok grp =>
          match constant s1 grp start with
          | .error e => .error e
          | .ok (cst, s2) => .ok (.Constant cst, s2)
  | _ => .error (.UnpredictableState st.current.span)

/-- Name-list loop of `parse_classish_uses` (lines 252-271): while the
current token is neither the terminator nor the block opener, parse a trait
name; a following comma whose lookahead is the terminator or the opener
deliberately runs the corresponding expect routine (which fails on the
comma), otherwise the comma is consumed and the loop continues. -/
def uses_names_loop : Nat → State → List Identifier → Except ParseError (List Identifier × State)
  | 0, s, _ => .error (.UnpredictableState s.current.span)
  | n + 1, s, traits =>
    if s.current.kind ≠ TokenKind.semiColon ∧ s.current.kind ≠ TokenKind.leftBrace then
      match full_name s with
      | .error e => .error e
      | .ok (t, s1) =>
        let traits1 := traits ++ [t]
        if s1.current.kind = TokenKind.comma then
          if s1.peek.kind = TokenKind.semiColon then
            match skip_semicolon s1 with
            | .error e => .error e
            | .ok (_, s2) => uses_names_loop n s2 traits1
          else if s1.peek.kind = TokenKind.leftBrace then
            match skip_left_brace s1 with
            | .error e => .error e
            | .ok (_, s2) => uses_names_loop n s2 traits1
          else uses_names_loop n s1.next traits1
        else .ok (traits1, s1)
    else .ok (traits, s)

/-- Method-reference parse inside the adaptation block (lines 278-286):
a scope-resolution lookahead yields a qualified reference, otherwise a bare
one. -/
def method_reference (s : State) :
    Except ParseError ((Option Identifier × Identifier) × State) :=
  match s.peek.kind with
  | .doubleColon =>
    match full_name s with
    | .error e => .error e
    | .ok (tr, s1) =>
      let s2 := s1.next
      match ident s2 with
      | .error e => .error e
      | .ok (m, s3) => .ok ((some tr, m), s3)
  | _ =>
    match ident s with
    | .error e => .error e
    | .ok (m, s1) => .ok ((none, m), s1)

/-- Token-kind test of the `as`-arm's visibility match (line 291). -/
def is_visibility_token (k : TokenKind) : Bool :=
  match k with
  | .publicKw => true
  | .protectedKw => true
  | .privateKw => true
  | _ => false

/-- The visibility node built by the peek-token match of the `as` arm
(lines 292-305): constructed from the current token's span and the
lookahead token's span. -/
def as_visibility (s : State) : VisibilityModifier :=
  match s.current.kind with
  | .publicKw => .Public s.current.span s.peek.span
  | .protectedKw => .Protected s.current.span s.peek.span
  | _ => .Private s.current.span s.peek.span

/-- The `as` arm of the adaptation rule (lines 289-334), entered with the
cursor just past `as`: a visibility keyword is captured and consumed; a
terminator right after it yields a Visibility adaptation, anything else an
Alias carrying the visibility; without a visibility keyword, an alias name
yields an Alias with no explicit visibility. -/
def as_adaptation (tr : Option Identifier) (m : Identifier) (s : State) :
    Except ParseError (TraitAdaptation × State) :=
  if is_visibility_token s.current.kind = true then
    let visibility := as_visibility s
    let s1 := s.next
    if s1.current.kind = TokenKind.semiColon then
      .ok (.Visibility tr m visibility, s1)
    else
      match name s1 with
      | .error e => .error e
      | .ok (a, s2) => .ok (.Alias tr m a (some visibility), s2)
  else
    match name s with
    | .error e => .error e
    | .ok (a, s1) => .ok (.Alias tr m a none, s1)

/-- Inner trait-name loop of the `insteadof` arm (lines 348-362): while the
terminator has not been reached, parse a trait name; a comma whose lookahead
is the terminator runs the terminator expect routine (failing on the comma),
otherwise the comma is consumed. -/
def insteadof_loop : Nat → State → List Identifier → Except ParseError (List Identifier × State)
  | 0, s, _ => .error (.UnpredictableState s.current.span)
  | n + 1, s, acc =>
    if s.current.kind ≠ TokenKind.semiColon then
      match full_name s with
      | .error e => .error e
      | .ok (t, s1) =>
        let acc1 := acc ++ [t]
        if s1.current.kind = TokenKind.comma then
          if s1.peek.kind = TokenKind.semiColon then
            match skip_semicolon s1 with
            | .error e => .error e
            | .ok (_, s2) => insteadof_loop n s2 acc1
          else insteadof_loop n s1.next acc1
        else .ok (acc1, s1)
    else .ok (acc, s)

/-- The `insteadof` arm (lines 335-363), entered with the cursor just past
`insteadof`: parse the first overridden trait name; on a following comma,
first run the terminator expect routine when the lookahead is the terminator
(no trailing comma), then consume the comma and continue with the inner
loop. -/
def insteadof_branch (fuel : Nat) (s : State) : Except ParseError (List Identifier × State) :=
  match full_name s with
  | .error e => .error e
  | .ok (t, s1) =>
    if s1.current.kind = TokenKind.comma then
      if s1.peek.kind = TokenKind.semiColon then
        match skip_semicolon s1 with
        | .error e => .error e
        | .ok (_, s2) => insteadof_loop fuel s2.next [t]
      else insteadof_loop fuel s1.next [t]
    else .ok ([t], s1)

/-- One adaptation rule of the block (lines 278-371): parse the method
reference, consume the next token and require it to be `as` or `insteadof`,
then run the corresponding arm. -/
def classish_use_adaptation (s : State) : Except ParseError (TraitAdaptation × State) :=
  match method_reference s with
  | .error e => .error e
  | .ok (r, s1) =>
    let k := s1.current.kind
    let s2 := s1.next
    match k with
    | .asKw => as_adaptation r.1 r.2 s2
    | .insteadofKw =>
      match insteadof_branch (s2.tokens.length + 1) s2 with
      | .error e => .error e
      | .ok (lst, s3) => .ok (.Precedence r.1 r.2 lst, s3)
    | _ => .error (.ExpectedToken [.asKw, .insteadofKw] k s1.current.span)

/-- Adaptation-block loop (lines 277-374): until the closing brace, parse
one adaptation rule and expect the terminator after it. -/
def adaptations_loop : Nat → State → List TraitAdaptation →
    Except ParseError (List TraitAdaptation × State)
  | 0, s, _ => .error (.UnpredictableState s.current.span)
  | n + 1, s, acc =>
    if s.current.kind ≠ TokenKind.rightBrace then
      match classish_use_adaptation s with
      | .error e => .error e
      | .ok (a, s1) =>
        match skip_semicolon s1 with
        | .error e => .error e
        | .ok (_, s2) => adaptations_loop n s2 (acc ++ [a])
    else .ok (acc, s)

/-- `parse_classish_uses` (lines 247-385): consume `use`, run the name-list
loop, then either the brace-delimited adaptation block or the terminator,
returning a TraitUse with the ordered names and adaptations. -/
def parse_classish_uses (st : State) : Except ParseError (Statement × State) :=
  let s := st.next
  match uses_names_loop (s.tokens.length + 1) s [] with
  | .error e => .error e
  | .ok (traits, s1) =>
    if s1.current.kind = TokenKind.leftBrace then
      match skip_left_brace s1 with
      | .error e => .error e
      | .ok (_, s2) =>
        match adaptations_loop (s2.tokens.length + 1) s2 [] with
        | .error e => .error e
        | .ok (adaptations, s3) =>
          match skip_right_brace s3 with
          | .error e => .error e
          | .ok (_, s4) => .ok (.TraitUse traits adaptations, s4)
    else
      match skip_semicolon s1 with
      | .error e => .error e
      | .ok (_, s2) => .ok (.TraitUse traits [], s2)

/-- The optional default-value parse of the property path (lines 184-189). -/
def property_default (s : State) : Except ParseError (Option Expr × State) :=
  if s.current.kind = TokenKind.equals then
    match expression s.next .Lowest with
    | .error e => .error e
    | .ok (e, s1) => .ok (some e, s1)
  else .ok (none, s)

/-- The scope lookup of the property path (lines 191-194): the innermost
frame must be a trait, class or anonymous class; its rendered name owns the
diagnostics. -/
def class_like_scope_name (s : State) : Except ParseError String :=
  match s.scopes.head? with
  | some (.traitScope n) => .ok (s.named n)
  | some (.classScope n) => .ok (s.named n)
  | some (.anonymousClass _) => .ok (s.named "class@anonymous")
  | _ => .error (.UnpredictableState s.current.span)

/-- The post-parse property validations (lines 196-234), in source order:
(a) readonly with static, (b) readonly with a default value, (c) a declared
type that includes a callable shape or is the bottom type, (d) readonly
without a declared type. -/
def property_check (className : String) (v : Identifier) (value : Option Expr)
    (modifiers : PropertyModifierGroup) (ty : Option Ty) (sp : Nat) :
    Except ParseError Unit :=
  if modifiers.has_readonly && modifiers.has_static then
    .error (.StaticPropertyUsingReadonlyModifier className v.name sp)
  else if modifiers.has_readonly && value.isSome then
    .error (.ReadonlyPropertyHasDefaultValue className v.name sp)
  else
    match ty with
    | some t =>
      if t.includes_callable || t.is_bottom then
        .error (.ForbiddenTypeUsedInProperty className v.name t sp)
      else .ok ()
    | none =>
      if modifiers.has_readonly then
        .error (.MissingTypeForReadonlyProperty className v.name sp)
      else .ok ()

/-- The property tail of `class_like_statement` (lines 177-244): validate
modifiers under property rules, parse the optional type, the variable name
and the optional default, look up the owning scope, run the post-parse
validations, expect the terminator and build the Property statement with
the drained attributes. -/
def class_like_property (mods : List Modifier) (s : State) :
    Except ParseError (Statement × State) :=
  match property_group mods with
  | .error e => .error e
  | .ok modifiers =>
    let d := optional_data_type s
    let ty := d.1
    let s1 := d.2
    match var s1 with
    | .error e => .error e
    | .ok (v, s2) =>
      match property_default s2 with
      | .error e => .error e
      | .ok (value, s3) =>
        match class_like_scope_name s3 with
        | .error e => .error e
        | .ok className =>
          match property_check className v value modifiers ty s3.current.span with
          | .error e => .error e
          | .ok _ =>
            match skip_semicolon s3 with
            | .error e => .error e
            | .ok (_, s4) =>
              let a := s4.get_attributes
              .ok (.Property v value ty modifiers a.1, a.2)

/-- `class_like_statement` (lines 149-245): gather attributes, collect
modifiers; with no attributes a `use` keyword routes to trait-use parsing
and a `const` keyword to the constant helper; a function keyword routes to
method parsing; everything else is a property. -/
def class_like_statement (st : State) : Except ParseError (Statement × State) :=
  let g := gather_attributes st
  let has_attributes := g.1
  let start := g.2.current.span
  let c := collect g.2
  let mods := c.1
  let s := c.2
  if has_attributes = false ∧ s.current.kind = TokenKind.useKw then
    parse_classish_uses s
  else if has_attributes = false ∧ s.current.kind = TokenKind.constKw then
    match constant_group mods with
    | .error e => .error e
    | .ok grp =>
      match constant s grp start with
      | .error e => .error e
      | .ok (cst, s1) => .ok (.ClassishConstant cst, s1)
  else if s.current.kind = TokenKind.functionKw then
    match method_group mods with
    | .error e => .error e
    | .ok grp =>
      match method s grp start with
      | .error e => .error e
      | .ok (m, s1) => .ok (.Method m, s1)
  else
    class_like_property mods s

/-! ## Helper lemmas -/

instance {ε α : Type} [DecidableEq ε] [DecidableEq α] : DecidableEq (Except ε α) :=
  fun x y =>
    match x, y with
    | .error a, .error b =>
      if h : a = b then .isTrue (by rw [h])
      else .isFalse (by intro hc; cases hc; exact h rfl)
    | .error _, .ok _ => .isFalse (by intro hc; cases hc)
    | .ok _, .error _ => .isFalse (by intro hc; cases hc)
    | .ok a, .ok b =>
      if h : a = b then .isTrue (by rw [h])
      else .isFalse (by intro hc; cases hc; exact h rfl)

/-- A collected readonly modifier makes the validated property group report
readonly. -/
theorem has_readonly_of_mem (ms : List Modifier) (h : Modifier.readonlyM ∈ ms) :
    (⟨ms⟩ : PropertyModifierGroup).has_readonly = true := by
  simp only [PropertyModifierGroup.has_readonly, List.any_eq_true, decide_eq_true_eq]
  exact ⟨_, h, rfl⟩

/-- A collected static modifier makes the validated property group report
static. -/
theorem has_static_of_mem (ms : List Modifier) (h : Modifier.staticM ∈ ms) :
    (⟨ms⟩ : PropertyModifierGroup).has_static = true := by
  simp only [PropertyModifierGroup.has_static, List.any_eq_true, decide_eq_true_eq]
  exact ⟨_, h, rfl⟩

/-- If the post-parse property validations pass, the four property
invariants hold of the data they inspected. -/
theorem property_check_ok_inv (cn : String) (v : Identifier) (value : Option Expr)
    (g : PropertyModifierGroup) (ty : Option Ty) (sp : Nat) (u : Unit)
    (h : property_check cn v value g ty sp = .ok u) :
    (g.has_readonly = true → g.has_static = false) ∧
    (g.has_readonly = true → value = none) ∧
    (g.has_readonly = true → ty.isSome = true) ∧
    (∀ t, ty = some t → t.includes_callable = false ∧ t.is_bottom = false) := by
  unfold property_check at h
  split at h
  · exact absurd h (by simp)
  · split at h
    · exact absurd h (by simp)
    · rename_i h1 h2
      simp only [Bool.and_eq_true, not_and, Bool.not_eq_true] at h1 h2
      split at h
      · rename_i t
        split at h
        · exact absurd h (by simp)
        · rename_i h3
          simp only [Bool.or_eq_true, not_or, Bool.not_eq_true] at h3
          refine ⟨h1, ?_, fun _ => rfl, ?_⟩
          · intro hr
            have hv := h2 hr
            cases value with
            | none => rfl
            | some e => simp at hv
          · intro t' ht'
            cases ht'
            exact h3
      · split at h
        · exact absurd h (by simp)
        · rename_i h4
          refine ⟨h1, fun hr => ?_, fun hr => absurd hr h4, fun t ht => by cases ht⟩
          have hv := h2 hr
          cases value with
          | none => rfl
          | some e => simp at hv

/-- A successful property parse through `class_like_property` satisfies the
four property invariants. -/
theorem class_like_property_inv (mods : List Modifier) (s s1 : State) (v : Identifier)
    (value : Option Expr) (ty : Option Ty) (g : PropertyModifierGroup)
    (attrs : List Attribute)
    (h : class_like_property mods s = .ok (.Property v value ty g attrs, s1)) :
    (g.has_readonly = true → g.has_static = false) ∧
    (g.has_readonly = true → value = none) ∧
    (g.has_readonly = true → ty.isSome = true) ∧
    (∀ t, ty = some t → t.includes_callable = false ∧ t.is_bottom = false) := by
  unfold class_like_property property_group at h
  simp only [] at h
  split at h
  · exact absurd h (by simp)
  · split at h
    · exact absurd h (by simp)
    · split at h
      · exact absurd h (by simp)
      · rename_i className hscope
        split at h
        · exact absurd h (by simp)
        · rename_i u hcheck
          split at h
          · exact absurd h (by simp)
          · simp only [Except.ok.injEq, Prod.mk.injEq, Statement.Property.injEq] at h
            obtain ⟨⟨hv, hval, hty, hg, _⟩, _⟩ := h
            subst hv hval hty hg
            exact property_check_ok_inv _ _ _ _ _ _ _ hcheck

/-- A successful trait-use parse always yields a TraitUse statement. -/
theorem parse_classish_uses_shape (s : State) (st : Statement) (s' : State)
    (h : parse_classish_uses s = .ok (st, s')) :
    ∃ ts ads, st = .TraitUse ts ads := by
  unfold parse_classish_uses at h
  simp only [] at h
  split at h
  · exact absurd h (by simp)
  · split at h
    · split at h
      · exact absurd h (by simp)
      · split at h
        · exact absurd h (by simp)
        · split at h
          · exact absurd h (by simp)
          · simp only [Except.ok.injEq, Prod.mk.injEq] at h
            exact ⟨_, _, h.1.symm⟩
    · split at h
      · exact absurd h (by simp)
      · simp only [Except.ok.injEq, Prod.mk.injEq] at h
        exact ⟨_, _, h.1.symm⟩

/-! ## Claims -/

/-- C1: every Property statement successfully returned by the class-like
member dispatcher satisfies all four invariants — readonly excludes static,
readonly excludes a default value, readonly requires a declared type, and a
declared type is neither a callable shape nor the bottom type. -/
theorem claim_C1 (st : State) (s1 : State) (v : Identifier) (value : Option Expr)
    (ty : Option Ty) (mods : PropertyModifierGroup) (attrs : List Attribute)
    (h : class_like_statement st = .ok (.Property v value ty mods attrs, s1)) :
    (mods.has_readonly = true → mods.has_static = false) ∧
    (mods.has_readonly = true → value = none) ∧
    (mods.has_readonly = true → ty.isSome = true) ∧
    (∀ t, ty = some t → t.includes_callable = false ∧ t.is_bottom = false) := by
  unfold class_like_statement at h
  simp only [constant_group, method_group] at h
  split at h
  · obtain ⟨ts, ads, hshape⟩ := parse_classish_uses_shape _ _ _ h
    simp at hshape
  · split at h
    · split at h <;> simp_all
    · split at h
      · split at h <;> simp_all
      · exact class_like_property_inv _ _ _ _ _ _ _ _ h

/-- C1 witness: the class member `readonly string $name;` parses to a
Property, and `claim_C1` applies to it. -/
theorem claim_C1_witness :
    ((⟨[Modifier.readonlyM]⟩ : PropertyModifierGroup).has_readonly = true →
      (⟨[Modifier.readonlyM]⟩ : PropertyModifierGroup).has_static = false) ∧
    ((⟨[Modifier.readonlyM]⟩ : PropertyModifierGroup).has_readonly = true →
      (none : Option Expr) = none) ∧
    ((⟨[Modifier.readonlyM]⟩ : PropertyModifierGroup).has_readonly = true →
      (some (Ty.named "string")).isSome = true) ∧
    (∀ t, some (Ty.named "string") = some t →
      t.includes_callable = false ∧ t.is_bottom = false) :=
  claim_C1
    ⟨[⟨.readonlyKw, 0⟩, ⟨.tyTok (.named "string"), 1⟩, ⟨.varTok "name", 2⟩, ⟨.semiColon, 3⟩],
      [.classScope "Foo"], []⟩
    ⟨[], [.classScope "Foo"], []⟩
    ⟨"name", 2⟩ none (some (.named "string")) ⟨[Modifier.readonlyM]⟩ []
    (by decide)

/-- C2: the post-parse property validations check readonly-with-static
first, so a property whose collected modifiers include both readonly and
static — a combination the property modifier validator accepts — fails with
the readonly/static conflict error regardless of the declared type or the
default value (both left arbitrary here, including forbidden types). -/
theorem claim_C2 (st : State) (v : Identifier) (value : Option Expr) (cn : String)
    (s3 s4 : State)
    (hu : (collect (gather_attributes st).2).2.current.kind ≠ TokenKind.useKw)
    (hc : (collect (gather_attributes st).2).2.current.kind ≠ TokenKind.constKw)
    (hf : (collect (gather_attributes st).2).2.current.kind ≠ TokenKind.functionKw)
    (hr : Modifier.readonlyM ∈ (collect (gather_attributes st).2).1)
    (hs : Modifier.staticM ∈ (collect (gather_attributes st).2).1)
    (hvar : var (optional_data_type (collect (gather_attributes st).2).2).2 = .ok (v, s3))
    (hval : property_default s3 = .ok (value, s4))
    (hscope : class_like_scope_name s4 = .ok cn) :
    class_like_statement st =
      .error (.StaticPropertyUsingReadonlyModifier cn v.name s4.current.span) := by
  have hrs : ((⟨(collect (gather_attributes st).2).1⟩ : PropertyModifierGroup).has_readonly &&
      (⟨(collect (gather_attributes st).2).1⟩ : PropertyModifierGroup).has_static) = true := by
    rw [Bool.and_eq_true]
    exact ⟨has_readonly_of_mem _ hr, has_static_of_mem _ hs⟩
  unfold class_like_statement
  simp only []
  rw [if_neg (fun hh => hu hh.2), if_neg (fun hh => hc hh.2), if_neg hf]
  unfold class_like_property
  simp only [property_group, hvar, hval, hscope]
  unfold property_check
  rw [if_pos hrs]

/-- C2 witness: `readonly static string $name = 7;` in class `Foo` fails
with the readonly/static conflict even though it also has a default value. -/
theorem claim_C2_witness :
    class_like_statement
        ⟨[⟨.readonlyKw, 0⟩, ⟨.staticKw, 1⟩, ⟨.tyTok (.named "string"), 2⟩,
          ⟨.varTok "name", 3⟩, ⟨.equals, 4⟩, ⟨.intTok 7, 5⟩, ⟨.semiColon, 6⟩],
          [.classScope "Foo"], []⟩ =
      .error (.StaticPropertyUsingReadonlyModifier "Foo" "name" 6) :=
  claim_C2
    ⟨[⟨.readonlyKw, 0⟩, ⟨.staticKw, 1⟩, ⟨.tyTok (.named "string"), 2⟩,
      ⟨.varTok "name", 3⟩, ⟨.equals, 4⟩, ⟨.intTok 7, 5⟩, ⟨.semiColon, 6⟩],
      [.classScope "Foo"], []⟩
    ⟨"name", 3⟩ (some (.intLit 7)) "Foo"
    ⟨[⟨.equals, 4⟩, ⟨.intTok 7, 5⟩, ⟨.semiColon, 6⟩], [.classScope "Foo"], []⟩
    ⟨[⟨.semiColon, 6⟩], [.classScope "Foo"], []⟩
    (by decide) (by decide) (by decide) (by decide) (by decide)
    (by decide) (by decide) (by decide)

/-- C3: a unit-enum case declaration (no attributes, case keyword, then a
name) fails with the unit-enum-value error — naming the case and the
enclosing enum — when the token after the case name is the equals sign, and
otherwise expects the statement terminator and returns a case member that
carries no value (the UnitEnumCase node has no value field). -/
theorem claim_C3 (st : State) (en : String) (bk : Bool) (nm : Identifier) (s2 : State)
    (hscope : st.scopes.head? = some (.enumScope en bk))
    (hA : (gather_attributes st).1 = false)
    (hcase : (gather_attributes st).2.current.kind = TokenKind.caseKw)
    (hname : ident (gather_attributes st).2.next = .ok (nm, s2)) :
    (s2.current.kind = TokenKind.equals →
      unit_enum_member st =
        .error (.CaseValueForUnitEnum nm.name (s2.named en) s2.current.span)) ∧
    (s2.current.kind ≠ TokenKind.equals →
      unit_enum_member st =
        Except.map
          (fun p => (UnitEnumMember.Case ⟨(gather_attributes st).2.current.span, p.1, nm⟩, p.2))
          (skip_semicolon s2)) := by
  unfold unit_enum_member
  rw [hscope]
  simp only []
  rw [if_pos ⟨hA, hcase⟩]
  simp only [hname]
  constructor
  · intro he
    rw [if_pos he]
  · intro hne
    rw [if_neg hne]
    rcases hsk : skip_semicolon s2 with e | p
    · simp [Except.map]
    · obtain ⟨endSp, s3⟩ := p
      simp [Except.map]

/-- C3 witness: in unit enum `E`, `case A = 1;` fails with the
unit-enum-value error naming `A` and `E`. -/
theorem claim_C3_witness :
    unit_enum_member
        ⟨[⟨.caseKw, 0⟩, ⟨.identTok "A", 1⟩, ⟨.equals, 2⟩, ⟨.intTok 1, 3⟩, ⟨.semiColon, 4⟩],
          [.enumScope "E" false], []⟩ =
      .error (.CaseValueForUnitEnum "A" "E" 2) :=
  (claim_C3
    ⟨[⟨.caseKw, 0⟩, ⟨.identTok "A", 1⟩, ⟨.equals, 2⟩, ⟨.intTok 1, 3⟩, ⟨.semiColon, 4⟩],
      [.enumScope "E" false], []⟩
    "E" false ⟨"A", 1⟩
    ⟨[⟨.equals, 2⟩, ⟨.intTok 1, 3⟩, ⟨.semiColon, 4⟩], [.enumScope "E" false], []⟩
    (by decide) (by decide) (by decide) (by decide)).1 (by decide)

/-- C4: a backed-enum case declaration fails with the missing-backed-value
error — naming the case and the enclosing enum — when the statement
terminator immediately follows the case name, and otherwise consumes the
equals sign, parses the value with the expression parser at lowest
precedence, expects the terminator, and returns a case member retaining the
parsed value. -/
theorem claim_C4 (st : State) (en : String) (bk : Bool) (nm : Identifier) (s2 : State)
    (hscope : st.scopes.head? = some (.enumScope en bk))
    (hA : (gather_attributes st).1 = false)
    (hcase : (gather_attributes st).2.current.kind = TokenKind.caseKw)
    (hname : ident (gather_attributes st).2.next = .ok (nm, s2)) :
    (s2.current.kind = TokenKind.semiColon →
      backed_enum_member st =
        .error (.MissingCaseValueForBackedEnum nm.name (s2.named en) s2.current.span)) ∧
    (s2.current.kind ≠ TokenKind.semiColon →
      backed_enum_member st =
        (skip s2 .equals).bind fun p =>
          (expression p.2 .Lowest).bind fun q =>
            Except.map
              (fun r =>
                (BackedEnumMember.Case
                  ⟨(gather_attributes st).2.current.span, r.1, nm, q.1⟩, r.2))
              (skip_semicolon q.2)) := by
  unfold backed_enum_member
  rw [hscope]
  simp only []
  rw [if_pos ⟨hA, hcase⟩]
  simp only [hname]
  constructor
  · intro he
    rw [if_pos he]
  · intro hne
    rw [if_neg hne]
    rcases heq : skip s2 .equals with e | p
    · simp [Except.bind, heq]
    · obtain ⟨sp1, s3⟩ := p
      rcases hex : expression s3 .Lowest with e | q
      · simp [Except.bind, heq, hex]
      · obtain ⟨val, s4⟩ := q
        rcases hsk : skip_semicolon s4 with e | r
        · simp [Except.bind, Except.map, heq, hex, hsk]
        · obtain ⟨endSp, s5⟩ := r
          simp [Except.bind, Except.map, heq, hex, hsk]

/-- C4 witness: in backed enum `E`, `case X;` fails with the
missing-backed-value error naming `X` and `E`. -/
theorem claim_C4_witness :
    backed_enum_member
        ⟨[⟨.caseKw, 0⟩, ⟨.identTok "X", 1⟩, ⟨.semiColon, 2⟩], [.enumScope "E" true], []⟩ =
      .error (.MissingCaseValueForBackedEnum "X" "E" 2) :=
  (claim_C4
    ⟨[⟨.caseKw, 0⟩, ⟨.identTok "X", 1⟩, ⟨.semiColon, 2⟩], [.enumScope "E" true], []⟩
    "E" true ⟨"X", 1⟩
    ⟨[⟨.semiColon, 2⟩], [.enumScope "E" true], []⟩
    (by decide) (by decide) (by decide) (by decide)).1 (by decide)

/-- C5: an interface-body member preceded by at least one attribute is
always routed to method parsing under interface-method modifier rules, even
when the next keyword would otherwise select the constant branch; with no
attributes, a function keyword selects the method branch and any other
token selects the constant branch under interface-constant rules. -/
theorem claim_C5 (st : State) :
    ((gather_attributes st).1 = true →
      interface_statement st =
        match interface_method_group (collect (gather_attributes st).2).1 with
        | .error e => .error e
        | .ok grp =>
          match method (collect (gather_attributes st).2).2 grp
              (gather_attributes st).2.current.span with
          | .error e => .error e
          | .ok (m, s1) => .ok (.Method m, s1)) ∧
    ((gather_attributes st).1 = false →
      (collect (gather_attributes st).2).2.current.kind = TokenKind.functionKw →
      interface_statement st =
        match interface_method_group (collect (gather_attributes st).2).1 with
        | .error e => .error e
        | .ok grp =>
          match method (collect (gather_attributes st).2).2 grp
              (gather_attributes st).2.current.span with
          | .error e => .error e
          | .ok (m, s1) => .ok (.Method m, s1)) ∧
    ((gather_attributes st).1 = false →
      (collect (gather_attributes st).2).2.current.kind ≠ TokenKind.functionKw →
      interface_statement st =
        match interface_constant_group (collect (gather_attributes st).2).1 with
        | .error e => .error e
        | .ok grp =>
          match constant (collect (gather_attributes st).2).2 grp
              (gather_attributes st).2.current.span with
          | .error e => .error e
          | .ok (cst, s1) => .ok (.ClassishConstant cst, s1)) := by
  refine ⟨fun hA => ?_, fun _ hfn => ?_, fun hA hfn => ?_⟩
  · unfold interface_statement
    simp only []
    rw [if_pos (Or.inl hA)]
  · unfold interface_statement
    simp only []
    rw [if_pos (Or.inr hfn)]
  · unfold interface_statement
    simp only []
    rw [if_neg]
    intro hor
    rcases hor with h1 | h2
    · rw [hA] at h1; cases h1
    · exact hfn h2

/-- C5 witness: an interface member consisting of an attribute followed by
`const X = 1;` is routed to method parsing (which then rejects the const
keyword), not to the constant branch. -/
theorem claim_C5_witness :
    interface_statement
        ⟨[⟨.attrTok, 0⟩, ⟨.constKw, 1⟩, ⟨.identTok "X", 2⟩, ⟨.equals, 3⟩,
          ⟨.intTok 1, 4⟩, ⟨.semiColon, 5⟩], [], []⟩ =
      .error (.ExpectedToken [.functionKw] .constKw 1) := by
  have h :=
    (claim_C5
      ⟨[⟨.attrTok, 0⟩, ⟨.constKw, 1⟩, ⟨.identTok "X", 2⟩, ⟨.equals, 3⟩,
        ⟨.intTok 1, 4⟩, ⟨.semiColon, 5⟩], [], []⟩).1 (by decide)
  exact h.trans (by decide)

/-- The inner insteadof loop only ever appends to its accumulator: a
non-empty accumulator yields a non-empty result list. -/
theorem insteadof_loop_ne_nil (fuel : Nat) :
    ∀ (s : State) (acc lst : List Identifier) (s' : State),
      insteadof_loop fuel s acc = .ok (lst, s') → acc ≠ [] → lst ≠ [] := by
  induction fuel with
  | zero =>
    intro s acc lst s' h _
    exact absurd h (by simp [insteadof_loop])
  | succ n ih =>
    intro s acc lst s' h hacc
    unfold insteadof_loop at h
    split at h
    · split at h
      · exact absurd h (by simp)
      · split at h
        · split at h
          · split at h
            · exact absurd h (by simp)
            · exact ih _ _ _ _ h (by simp)
          · exact ih _ _ _ _ h (by simp)
        · simp only [Except.ok.injEq, Prod.mk.injEq] at h
          obtain ⟨h1, _⟩ := h
          subst h1
          simp
    · simp only [Except.ok.injEq, Prod.mk.injEq] at h
      obtain ⟨h1, _⟩ := h
      subst h1
      exact hacc

/-- C6: in the trait-use name-list and in an insteadof trait-name list, a
comma immediately followed by the statement terminator (or, in the
name-list, by the adaptation-block opener) makes the parser run the
terminator/brace expect routine at the comma, so the parse fails with an
unexpected-token diagnostic whose found token is the comma.  The insteadof
enforcement is stated both after the first trait name (`insteadof_branch`,
source lines 339-344) and between later names (`insteadof_loop`, source
lines 351-355).  `use A, B;` succeeds with two trait names and no
adaptations, while `use A, B,;` and the insteadof rule
`use A { A::foo insteadof B,; }` fail with the unexpected-comma
diagnostic. -/
theorem claim_C6 :
    (∀ (n : Nat) (s : State) (traits : List Identifier) (t : Identifier) (s1 : State),
      s.current.kind ≠ TokenKind.semiColon → s.current.kind ≠ TokenKind.leftBrace →
      full_name s = .ok (t, s1) → s1.current.kind = TokenKind.comma →
      s1.peek.kind = TokenKind.semiColon →
      uses_names_loop (n + 1) s traits =
        .error (.ExpectedToken [.semiColon] .comma s1.current.span)) ∧
    (∀ (n : Nat) (s : State) (traits : List Identifier) (t : Identifier) (s1 : State),
      s.current.kind ≠ TokenKind.semiColon → s.current.kind ≠ TokenKind.leftBrace →
      full_name s = .ok (t, s1) → s1.current.kind = TokenKind.comma →
      s1.peek.kind = TokenKind.leftBrace →
      uses_names_loop (n + 1) s traits =
        .error (.ExpectedToken [.leftBrace] .comma s1.current.span)) ∧
    (∀ (n : Nat) (s : State) (acc : List Identifier) (t : Identifier) (s1 : State),
      s.current.kind ≠ TokenKind.semiColon →
      full_name s = .ok (t, s1) → s1.current.kind = TokenKind.comma →
      s1.peek.kind = TokenKind.semiColon →
      insteadof_loop (n + 1) s acc =
        .error (.ExpectedToken [.semiColon] .comma s1.current.span)) ∧
    (∀ (fuel : Nat) (s : State) (t : Identifier) (s1 : State),
      full_name s = .ok (t, s1) → s1.current.kind = TokenKind.comma →
      s1.peek.kind = TokenKind.semiColon →
      insteadof_branch fuel s =
        .error (.ExpectedToken [.semiColon] .comma s1.current.span)) ∧
    (class_like_statement
        ⟨[⟨.useKw, 0⟩, ⟨.identTok "A", 1⟩, ⟨.comma, 2⟩, ⟨.identTok "B", 3⟩, ⟨.semiColon, 4⟩],
          [.classScope "C"], []⟩ =
      .ok (.TraitUse [⟨"A", 1⟩, ⟨"B", 3⟩] [], ⟨[], [.classScope "C"], []⟩)) ∧
    (class_like_statement
        ⟨[⟨.useKw, 0⟩, ⟨.identTok "A", 1⟩, ⟨.comma, 2⟩, ⟨.identTok "B", 3⟩, ⟨.comma, 4⟩,
          ⟨.semiColon, 5⟩], [.classScope "C"], []⟩ =
      .error (.ExpectedToken [.semiColon] .comma 4)) ∧
    (class_like_statement
        ⟨[⟨.useKw, 0⟩, ⟨.identTok "A", 1⟩, ⟨.leftBrace, 2⟩, ⟨.identTok "A", 3⟩,
          ⟨.doubleColon, 4⟩, ⟨.identTok "foo", 5⟩, ⟨.insteadofKw, 6⟩, ⟨.identTok "B", 7⟩,
          ⟨.comma, 8⟩, ⟨.semiColon, 9⟩, ⟨.rightBrace, 10⟩], [.classScope "C"], []⟩ =
      .error (.ExpectedToken [.semiColon] .comma 8)) := by
  refine ⟨?_, ?_, ?_, ?_, by decide, by decide, by decide⟩
  · intro n s traits t s1 h1 h2 hfn hc hp
    have hns : ¬(s1.current.kind = TokenKind.semiColon) := by rw [hc]; decide
    unfold uses_names_loop
    rw [if_pos ⟨h1, h2⟩]
    simp only [hfn]
    rw [if_pos hc, if_pos hp]
    unfold skip_semicolon skip
    rw [if_neg hns, hc]
  · intro n s traits t s1 h1 h2 hfn hc hp
    have hnb : ¬(s1.current.kind = TokenKind.leftBrace) := by rw [hc]; decide
    have hnsp : ¬(s1.peek.kind = TokenKind.semiColon) := by rw [hp]; decide
    unfold uses_names_loop
    rw [if_pos ⟨h1, h2⟩]
    simp only [hfn]
    rw [if_pos hc, if_neg hnsp, if_pos hp]
    unfold skip_left_brace skip
    rw [if_neg hnb, hc]
  · intro n s acc t s1 h1 hfn hc hp
    have hns : ¬(s1.current.kind = TokenKind.semiColon) := by rw [hc]; decide
    unfold insteadof_loop
    rw [if_pos h1]
    simp only [hfn]
    rw [if_pos hc, if_pos hp]
    unfold skip_semicolon skip
    rw [if_neg hns, hc]
  · intro fuel s t s1 hfn hc hp
    have hns : ¬(s1.current.kind = TokenKind.semiColon) := by rw [hc]; decide
    unfold insteadof_branch
    simp only [hfn]
    rw [if_pos hc, if_pos hp]
    unfold skip_semicolon skip
    rw [if_neg hns, hc]

/-- C6 witness: `claim_C6` applied to the name-list state sitting at `B,;`
inside `use A, B,;`. -/
theorem claim_C6_witness :
    uses_names_loop 1
        ⟨[⟨.identTok "B", 3⟩, ⟨.comma, 4⟩, ⟨.semiColon, 5⟩], [.classScope "C"], []⟩ [] =
      .error (.ExpectedToken [.semiColon] .comma 4) :=
  claim_C6.1 0
    ⟨[⟨.identTok "B", 3⟩, ⟨.comma, 4⟩, ⟨.semiColon, 5⟩], [.classScope "C"], []⟩ []
    ⟨"B", 3⟩
    ⟨[⟨.comma, 4⟩, ⟨.semiColon, 5⟩], [.classScope "C"], []⟩
    (by decide) (by decide) (by decide) (by decide) (by decide)

/-- C7: a trait-adaptation rule introduced by `as` dispatches on the token
after `as`: a visibility keyword with the terminator right after it yields a
Visibility adaptation with no alias; a visibility keyword followed by a name
yields an Alias carrying that visibility; a non-visibility token yields an
Alias with no explicit visibility.  The first conjunct ties the `as` arm to
the full adaptation-rule parser. -/
theorem claim_C7 (tr : Option Identifier) (m : Identifier) (s : State) :
    (∀ (s0 s1 : State), method_reference s0 = .ok ((tr, m), s1) →
      s1.current.kind = TokenKind.asKw →
      classish_use_adaptation s0 = as_adaptation tr m s1.next) ∧
    (is_visibility_token s.current.kind = true →
      s.next.current.kind = TokenKind.semiColon →
      as_adaptation tr m s = .ok (.Visibility tr m (as_visibility s), s.next)) ∧
    (is_visibility_token s.current.kind = true →
      s.next.current.kind ≠ TokenKind.semiColon →
      as_adaptation tr m s =
        Except.map (fun p => (TraitAdaptation.Alias tr m p.1 (some (as_visibility s)), p.2))
          (name s.next)) ∧
    (is_visibility_token s.current.kind = false →
      as_adaptation tr m s =
        Except.map (fun p => (TraitAdaptation.Alias tr m p.1 none, p.2)) (name s)) := by
  refine ⟨?_, ?_, ?_, ?_⟩
  · intro s0 s1 hmr hk
    unfold classish_use_adaptation
    simp only [hmr, hk]
  · intro hv hsemi
    unfold as_adaptation
    rw [if_pos hv, if_pos hsemi]
  · intro hv hnsemi
    unfold as_adaptation
    rw [if_pos hv, if_neg hnsemi]
    rcases hn : name s.next with e | p
    · simp [Except.map]
    · obtain ⟨a, s2⟩ := p
      simp [Except.map]
  · intro hv
    unfold as_adaptation
    rw [if_neg (by rw [hv]; decide)]
    rcases hn : name s with e | p
    · simp [Except.map]
    · obtain ⟨a, s1⟩ := p
      simp [Except.map]

/-- C7 witness: `claim_C7` applied past `foo as` with tokens `public ;`
yields the Visibility adaptation with no alias. -/
theorem claim_C7_witness :
    as_adaptation none ⟨"foo", 0⟩ ⟨[⟨.publicKw, 2⟩, ⟨.semiColon, 3⟩], [], []⟩ =
      .ok (.Visibility none ⟨"foo", 0⟩ (.Public 2 3),
        ⟨[⟨.semiColon, 3⟩], [], []⟩) := by
  have h :=
    (claim_C7 none ⟨"foo", 0⟩ ⟨[⟨.publicKw, 2⟩, ⟨.semiColon, 3⟩], [], []⟩).2.1
      (by decide) (by decide)
  exact h.trans (by decide)

/-- C8: a method reference whose lookahead is the scope-resolution token is
parsed as a qualified reference, otherwise as an unqualified one; an
insteadof rule always produces a non-empty insteadof list; and
`use A, B { A::foo insteadof B; }` yields a Precedence adaptation with
trait A, method foo and insteadof list exactly [B]. -/
theorem claim_C8 :
    (∀ s : State, s.peek.kind = TokenKind.doubleColon →
      method_reference s =
        match full_name s with
        | .error e => .error e
        | .ok (tr, s1) =>
          match ident s1.next with
          | .error e => .error e
          | .ok (m, s3) => .ok ((some tr, m), s3)) ∧
    (∀ s : State, s.peek.kind ≠ TokenKind.doubleColon →
      method_reference s =
        match ident s with
        | .error e => .error e
        | .ok (m, s1) => .ok ((none, m), s1)) ∧
    (∀ (fuel : Nat) (s : State) (lst : List Identifier) (s' : State),
      insteadof_branch fuel s = .ok (lst, s') → lst ≠ []) ∧
    (class_like_statement
        ⟨[⟨.useKw, 0⟩, ⟨.identTok "A", 1⟩, ⟨.comma, 2⟩, ⟨.identTok "B", 3⟩,
          ⟨.leftBrace, 4⟩, ⟨.identTok "A", 5⟩, ⟨.doubleColon, 6⟩, ⟨.identTok "foo", 7⟩,
          ⟨.insteadofKw, 8⟩, ⟨.identTok "B", 9⟩, ⟨.semiColon, 10⟩, ⟨.rightBrace, 11⟩],
          [.classScope "C"], []⟩ =
      .ok (.TraitUse [⟨"A", 1⟩, ⟨"B", 3⟩]
          [.Precedence (some ⟨"A", 5⟩) ⟨"foo", 7⟩ [⟨"B", 9⟩]],
        ⟨[], [.classScope "C"], []⟩)) := by
  refine ⟨?_, ?_, ?_, by decide⟩
  · intro s h
    unfold method_reference
    rw [h]
  · intro s h
    unfold method_reference
    cases hk : s.peek.kind <;> try rfl
    exact absurd hk h
  · intro fuel s lst s' h
    unfold insteadof_branch at h
    split at h
    · exact absurd h (by simp)
    · split at h
      · split at h
        · split at h
          · exact absurd h (by simp)
          · exact insteadof_loop_ne_nil _ _ _ _ _ h (by simp)
        · exact insteadof_loop_ne_nil _ _ _ _ _ h (by simp)
      · simp only [Except.ok.injEq, Prod.mk.injEq] at h
        obtain ⟨h1, _⟩ := h
        subst h1
        simp

/-- C8 witness: `claim_C8` applied to the insteadof tail `B;` shows the
produced insteadof list [B] is non-empty. -/
theorem claim_C8_witness :
    ([(⟨"B", 9⟩ : Identifier)] : List Identifier) ≠ [] :=
  claim_C8.2.2.1 1
    ⟨[⟨.identTok "B", 9⟩, ⟨.semiColon, 10⟩], [], []⟩
    [⟨"B", 9⟩]
    ⟨[⟨.semiColon, 10⟩], [], []⟩
    (by decide)

/-- C9: a successful run of the shared constant helper consumed the const
keyword, parsed exactly one name, required the equals sign, parsed one
expression at lowest precedence and required the terminator, returning a
node that carries the caller's validated modifier group and spans from the
start keyword through the terminator; the interface member `const X = 1;`
yields a ClassishConstant named X with literal value 1. -/
theorem claim_C9 :
    (∀ (s : State) (g : ConstantModifierGroup) (startSp : Nat)
        (c : ClassishConstant) (s' : State),
      constant s g startSp = .ok (c, s') →
      c.modifiers = g ∧ c.start = startSp ∧
      ∃ (s1 : State) (eqSp : Nat) (s2 s3 : State),
        ident s.next = .ok (c.name, s1) ∧
        skip s1 .equals = .ok (eqSp, s2) ∧
        expression s2 .Lowest = .ok (c.value, s3) ∧
        skip_semicolon s3 = .ok (c.endSpan, s')) ∧
    (interface_statement
        ⟨[⟨.constKw, 0⟩, ⟨.identTok "X", 1⟩, ⟨.equals, 2⟩, ⟨.intTok 1, 3⟩, ⟨.semiColon, 4⟩],
          [], []⟩ =
      .ok (.ClassishConstant ⟨0, 4, ⟨"X", 1⟩, .intLit 1, ⟨[]⟩⟩, ⟨[], [], []⟩)) := by
  refine ⟨?_, by decide⟩
  intro s g startSp c s' h
  unfold constant at h
  simp only [] at h
  split at h
  · exact absurd h (by simp)
  · rename_i p1 nm s1 hid
    split at h
    · exact absurd h (by simp)
    · rename_i p2 eqSp s2 heq
      split at h
      · exact absurd h (by simp)
      · rename_i p3 val s3 hex
        split at h
        · exact absurd h (by simp)
        · rename_i p4 endSp s4 hsk
          simp only [Except.ok.injEq, Prod.mk.injEq] at h
          obtain ⟨hc, hs⟩ := h
          subst hc
          subst hs
          exact ⟨rfl, rfl, s1, eqSp, s2, s3, hid, heq, hex, hsk⟩

/-- C9 witness: `claim_C9` applied to the concrete run of the constant
helper on `const X = 1;`. -/
theorem claim_C9_witness :
    (⟨0, 4, ⟨"X", 1⟩, .intLit 1, ⟨[]⟩⟩ : ClassishConstant).modifiers =
        (⟨[]⟩ : ConstantModifierGroup) ∧
    (⟨0, 4, ⟨"X", 1⟩, .intLit 1, ⟨[]⟩⟩ : ClassishConstant).start = 0 ∧
    ∃ (s1 : State) (eqSp : Nat) (s2 s3 : State),
      ident (State.next
          ⟨[⟨.constKw, 0⟩, ⟨.identTok "X", 1⟩, ⟨.equals, 2⟩, ⟨.intTok 1, 3⟩,
            ⟨.semiColon, 4⟩], [], []⟩) =
        .ok ((⟨0, 4, ⟨"X", 1⟩, .intLit 1, ⟨[]⟩⟩ : ClassishConstant).name, s1) ∧
      skip s1 .equals = .ok (eqSp, s2) ∧
      expression s2 .Lowest =
        .ok ((⟨0, 4, ⟨"X", 1⟩, .intLit 1, ⟨[]⟩⟩ : ClassishConstant).value, s3) ∧
      skip_semicolon s3 =
        .ok ((⟨0, 4, ⟨"X", 1⟩, .intLit 1, ⟨[]⟩⟩ : ClassishConstant).endSpan,
          (⟨[], [], []⟩ : State)) :=
  claim_C9.1
    ⟨[⟨.constKw, 0⟩, ⟨.identTok "X", 1⟩, ⟨.equals, 2⟩, ⟨.intTok 1, 3⟩, ⟨.semiColon, 4⟩],
      [], []⟩
    ⟨[]⟩ 0 ⟨0, 4, ⟨"X", 1⟩, .intLit 1, ⟨[]⟩⟩ ⟨[], [], []⟩
    (by decide)

/-- C10: the input `use ;` — the use keyword immediately followed by the
statement terminator — parses successfully to a TraitUse statement with an
empty trait-name list and an empty adaptation list, both through the
trait-use parser directly and through the class-like member dispatcher. -/
theorem claim_C10 :
    parse_classish_uses
        ⟨[⟨.useKw, 0⟩, ⟨.semiColon, 1⟩], [.classScope "C"], []⟩ =
      .ok (.TraitUse [] [], ⟨[], [.classScope "C"], []⟩) ∧
    class_like_statement
        ⟨[⟨.useKw, 0⟩, ⟨.semiColon, 1⟩], [.classScope "C"], []⟩ =
      .ok (.TraitUse [] [], ⟨[], [.classScope "C"], []⟩) := by
  constructor <;> decide

end PhpParser
